import Mathlib

/-!
Verification development for `autogen_serialized_datamodel.py` from
OpenTimelineIO (`opentimelineio/console/autogen_serialized_datamodel.py`).

The Python program reflects over a live module graph.  We embed it shallowly:

* a class object is a `Nat` identifier; its reflective behaviour (its
  `__name__`, `__module__`, `__doc__`, whether it is a subclass of
  `SerializableObject`, whether it is one of the three allow-listed opentime
  value types, whether it is on `SKIP_CLASSES`, the keys of the JSON
  serialization of a default-constructed instance, the `OTIO_SCHEMA` value of
  that serialization, and the outcome of `getattr` on the class and on a fresh
  instance) is given by a `ClassInfo` environment `CEnv : Nat → ClassInfo`;
* a module object is a `Nat` identifier; `MEnv` carries the list of modules
  (`getModule` returns an empty default for out-of-range identifiers) together
  with the identities of the distinguished modules `otio.schema`,
  `otio.opentime`, `otio.core`, `otio._otio` and `otio._opentime` used by
  `_remap_to_python_modules`;
* Python dicts are association lists with insertion-order update semantics,
  Python sets are `Finset ℕ`;
* `getattr` raising `AttributeError` is the `AttrRes.missing` constructor, and
  `inspect.getdoc` of an object is the `Option String` carried by the
  non-missing constructors (`none` models Python `None`).

Recursive procedures of the source (`_generate_model_for_module`,
`_search_mod_recursively`) are embedded with an explicit fuel argument so that
they are total structural recursions; termination of the source is then the
theorem that a concrete fuel bound is always sufficient.
-/

namespace Otio

/-- Outcome of a `getattr(obj, k)` / `inspect.getdoc` probe: `missing` models
`AttributeError`; `prop d` models an attribute that is a `property` object
whose `inspect.getdoc` is `d`; `other d` models a non-property attribute whose
`inspect.getdoc` is `d`. -/
inductive AttrRes where
  | missing : AttrRes
  | prop (doc : Option String) : AttrRes
  | other (doc : Option String) : AttrRes
  deriving DecidableEq, Repr

/-- Reflective data of one Python class object. -/
structure ClassInfo where
  /-- `cl.__name__` -/
  name : String := ""
  /-- `cl.__module__` (also `inspect.getmodule(cl).__name__`) -/
  module : String := ""
  /-- `cl.__doc__` -/
  doc : Option String := none
  /-- `issubclass(cl, otio.core.SerializableObject)` -/
  isSerializableSubclass : Bool := false
  /-- `cl in (otio.opentime.RationalTime, otio.opentime.TimeRange,
  otio.opentime.TimeTransform)` -/
  isOpentimeValue : Bool := false
  /-- `cl in SKIP_CLASSES` -/
  isSkipClass : Bool := false
  /-- the keys, in order, of
  `json.loads(otio.adapters.otio_json.write_to_string(cl()))` -/
  serializedKeys : List String := []
  /-- `field_dict["OTIO_SCHEMA"]` of that serialization -/
  schemaLabel : String := ""
  /-- class-level `getattr(cl, k)` together with `inspect.getdoc` of the result -/
  attr : String → AttrRes := fun _ => AttrRes.missing
  /-- instance-level `getattr(cl(), k)` together with `inspect.getdoc` -/
  instAttr : String → AttrRes := fun _ => AttrRes.missing

/-- Class environment: reflective data for every class identifier. -/
def CEnv : Type := Nat → ClassInfo

/-- One value of a module's `__dict__`: a class object, a module object, or
anything else (functions, constants, ...), which every filter of the source
discards via `inspect.isclass` / `inspect.ismodule`. -/
inductive Entry where
  | cls (c : Nat) : Entry
  | mod (m : Nat) : Entry
  | misc : Entry
  deriving DecidableEq, Repr

/-- Reflective data of one Python module object. -/
structure ModuleInfo where
  /-- `mod.__name__` -/
  name : String := ""
  /-- `str(mod)`, the sort key used for the recursion order -/
  strName : String := ""
  /-- `mod.__dict__.values()` in order -/
  members : List Entry := []
  deriving Repr

/-- Module environment: the module graph plus the identities of the modules the
source names explicitly (`otio.schema`, `otio.opentime`, `otio.core`,
`otio._otio`, `otio._opentime`). -/
structure MEnv where
  mods : List ModuleInfo := []
  schemaId : Nat := 0
  opentimeId : Nat := 0
  coreId : Nat := 0
  cppOtioId : Nat := 0
  cppOpentimeId : Nat := 0

/-- Look a module identifier up in the environment; out-of-range identifiers
behave as empty modules. -/
def getModule (menv : MEnv) (i : Nat) : ModuleInfo :=
  menv.mods.getD i {}

/-- `SKIP_KEYS` of the source: keys filtered from every serialized field dict. -/
def SKIP_KEYS : List String := ["OTIO_SCHEMA", "children"]

/-- `SKIP_MODULES` of the source: name stems of modules never recursed into. -/
def SKIP_MODULES : List String :=
  ["opentimelineio.schemadef", "opentimelineio._otio", "opentimelineio._opentime"]

/-! ### String primitives

Python compares strings by code points; we implement the comparison, the
`startswith` test and `split('.')` over `String.data` so that every operation
evaluates inside the kernel. -/

/-- Lexicographic (code-point) comparison of character lists, the order Python
uses for `sorted` on strings. -/
def lexLe : List Char → List Char → Bool
  | [], _ => true
  | _ :: _, [] => false
  | a :: as, b :: bs => if a < b then true else if a = b then lexLe as bs else false

/-- Python `a <= b` on strings. -/
def strLe (a b : String) : Bool := lexLe a.data b.data

/-- Python `s.startswith(t)`. -/
def pyStartsWith (s t : String) : Bool := t.data.isPrefixOf s.data

/-- Python `s.split('.')` on the underlying character list. -/
def splitDotData : List Char → List (List Char)
  | [] => [[]]
  | a :: t =>
    match splitDotData t with
    | [] => [[]]
    | seg :: rest => if a = '.' then [] :: seg :: rest else (a :: seg) :: rest

/-- `".".join(s.split('.')[:2])` of the source (line 290). -/
def firstTwoSegments (s : String) : String :=
  String.mk (List.intercalate ['.'] ((splitDotData s.data).take 2))

/-! ### Python dict as an association list -/

/-- Python dict lookup `d[k]` (as an `Option`). -/
def alookup {κ β : Type} [DecidableEq κ] (k : κ) : List (κ × β) → Option β
  | [] => none
  | (k', v) :: t => if k' = k then some v else alookup k t

/-- Python dict assignment `d[k] = v`: replaces in place, else appends. -/
def aset {κ β : Type} [DecidableEq κ] (k : κ) (v : β) : List (κ × β) → List (κ × β)
  | [] => [(k, v)]
  | (k', v') :: t => if k' = k then (k, v) :: t else (k', v') :: aset k v t

/-- Python `k in d` (dict key membership). -/
def inKeys {κ β : Type} [DecidableEq κ] (k : κ) (d : List (κ × β)) : Bool :=
  (alookup k d).isSome

/-- Python `d.update(u)`: assign every item of `u` into `d`, in order. -/
def dictUpdate {κ β : Type} [DecidableEq κ] (d u : List (κ × β)) : List (κ × β) :=
  u.foldl (fun acc kv => aset kv.1 kv.2 acc) d

/-! ### The three `PROP_FETCHERS` and the fetch loop (source lines 100-104 and
181-191)

Each loop iteration evaluates
`fetcher(cl, k) if isinstance(getattr(cl, k), property) else ""`;
an `AttributeError` anywhere in that expression falls through to the next
fetcher, and the `for`/`else` reports the key when all three raise. -/

/-- `inspect.getdoc` of an already-fetched attribute. -/
def getdocOf : AttrRes → Option String
  | AttrRes.missing => none
  | AttrRes.prop d => d
  | AttrRes.other d => d

/-- Outcome of one guarded fetcher attempt. -/
inductive FetchOutcome where
  | ok (v : Option String) : FetchOutcome
  | raised : FetchOutcome
  deriving DecidableEq, Repr

/-- The `i`-th iteration of the fetch loop for key `k` on class `info`:
evaluate the guard `isinstance(getattr(cl, k), property)` (which re-raises when
`getattr(cl, k)` raises), then the `i`-th fetcher of `PROP_FETCHERS` when the
guard is true, or `""` when it is false. -/
def attemptFetch (info : ClassInfo) (k : String) (i : Nat) : FetchOutcome :=
  match info.attr k with
  | AttrRes.missing => FetchOutcome.raised
  | AttrRes.prop _ =>
    match i with
    | 0 => FetchOutcome.ok (getdocOf (info.attr k))
    | 1 =>
      match info.attr ("_" ++ k) with
      | AttrRes.missing => FetchOutcome.raised
      | a => FetchOutcome.ok (getdocOf a)
    | _ =>
      match info.instAttr k with
      | AttrRes.missing => FetchOutcome.raised
      | _ => FetchOutcome.ok (some "")
  | AttrRes.other _ => FetchOutcome.ok (some "")

/-- Result of running the fetch loop to completion for one key. -/
inductive ResolveRes where
  | resolved (v : Option String) : ResolveRes
  | unresolved : ResolveRes
  deriving DecidableEq, Repr

/-- The `for fetcher in PROP_FETCHERS` loop with its `break`/`except`/`else`:
the first attempt that does not raise wins; when all three raise the key is
unresolved (and the source writes a diagnostic to `stderr`). -/
def resolveKey (info : ClassInfo) (k : String) : ResolveRes :=
  match attemptFetch info k 0 with
  | FetchOutcome.ok v => ResolveRes.resolved v
  | FetchOutcome.raised =>
    match attemptFetch info k 1 with
    | FetchOutcome.ok v => ResolveRes.resolved v
    | FetchOutcome.raised =>
      match attemptFetch info k 2 with
      | FetchOutcome.ok v => ResolveRes.resolved v
      | FetchOutcome.raised => ResolveRes.unresolved

/-! ### Per-class extraction (source lines 170-195) -/

/-- The per-class slice of the model: the dict `model[cl]`, mapping field keys
to the stored documentation (`none` models Python `None`). -/
abbrev ClsModel : Type := List (String × Option String)

/-- One iteration of the `for k in field_dict.keys()` loop: skip `SKIP_KEYS`,
otherwise run the fetch loop, storing the resolved documentation or appending
the `stderr` diagnostic of the `for`/`else`. -/
def extractStep (info : ClassInfo) (acc : ClsModel × List String) (k : String) :
    ClsModel × List String :=
  if k ∈ SKIP_KEYS then acc
  else
    match resolveKey info k with
    | ResolveRes.resolved v => (aset k v acc.1, acc.2)
    | ResolveRes.unresolved =>
      (acc.1, acc.2 ++ ["ERROR: could not fetch property: " ++ k])

/-- The body of the `for cl in serializable_classes` loop for one class:
serialize a default instance, resolve every non-skipped key through the fetch
loop (an unresolved key is reported on `stderr` and stored nowhere), then stash
`field_dict["OTIO_SCHEMA"]` back into the dict.  Returns the dict together
with the `stderr` lines produced. -/
def extractClass (info : ClassInfo) : ClsModel × List String :=
  let r := info.serializedKeys.foldl (extractStep info) ([], [])
  (aset "OTIO_SCHEMA" (some info.schemaLabel) r.1, r.2)

/-! ### Per-module extraction (source lines 151-197) -/

/-- The `serializable_classes` list comprehension: members of the module that
are classes and either (not yet recorded and a `SerializableObject` subclass)
or one of the three allow-listed opentime value types.  Python's operator
precedence groups the condition as
`(isclass ∧ not-recorded ∧ subclass) ∨ allow-listed`. -/
def candidateClasses (cenv : CEnv) (m : ModuleInfo) (classes : List (Nat × ClsModel)) :
    List Nat :=
  m.members.filterMap fun e =>
    match e with
    | Entry.cls c =>
      if (!inKeys c classes && (cenv c).isSerializableSubclass)
          || (cenv c).isOpentimeValue then some c else none
    | _ => none

/-- One iteration of the `for cl in serializable_classes` loop: skip
`SKIP_CLASSES` members (`continue` before any instantiation), otherwise
extract the class into the local `model` dict and collect its `stderr`
output. -/
def extractLocalStep (cenv : CEnv) (acc : List (Nat × ClsModel) × List String) (c : Nat) :
    List (Nat × ClsModel) × List String :=
  if (cenv c).isSkipClass then acc
  else
    let r := extractClass (cenv c)
    (aset c r.1 acc.1, acc.2 ++ r.2)

/-- The whole `for cl in serializable_classes` loop. -/
def extractLocal (cenv : CEnv) (cands : List Nat) : List (Nat × ClsModel) × List String :=
  cands.foldl (extractLocalStep cenv) ([], [])

/-- The `new_mods` computation: member modules not yet visited and whose name
does not start with any `SKIP_MODULES` stem, sorted by `str(mod)`. -/
def newModules (menv : MEnv) (m : ModuleInfo) (visited : Finset ℕ) : List Nat :=
  List.insertionSort
    (fun a b => strLe (getModule menv a).strName (getModule menv b).strName = true)
    (m.members.filterMap fun e =>
      match e with
      | Entry.mod j =>
        if j ∉ visited && SKIP_MODULES.all (fun t => !pyStartsWith (getModule menv j).name t)
        then some j else none
      | _ => none)

/-- The mutable state threaded through `_generate_model_for_module`: the
`classes` dict and `modules` set passed by reference, the accumulated `stderr`
stream, and a log of the invocations of the routine (module identifier paired
with whether the module was already in the visitation set on entry). -/
structure St where
  classes : List (Nat × ClsModel) := []
  visited : Finset ℕ := ∅
  errs : List String := []
  log : List (Nat × Bool) := []

/-- Sequential recursion over a list of child modules, threading the state and
propagating fuel exhaustion (the bracketed list comprehension of line 213). -/
def genList (g : Nat → St → Option St) : List Nat → St → Option St
  | [], st => some st
  | k :: ks, st =>
    match g k st with
    | none => none
    | some st' => genList g ks st'

/-- The non-recursive part of `_generate_model_for_module` (lines 152-197):
add the module to the visitation set (logging the invocation and whether the
module was already visited), collect the local serializable candidates against
the running `classes` dict, extract them, merge via `classes.update(model)`. -/
def visitModule (menv : MEnv) (cenv : CEnv) (mid : Nat) (st : St) : St :=
  let m := getModule menv mid
  let st1 : St :=
    { st with
      visited := insert mid st.visited
      log := st.log ++ [(mid, decide (mid ∈ st.visited))] }
  let r := extractLocal cenv (candidateClasses cenv m st1.classes)
  { st1 with classes := dictUpdate st1.classes r.1, errs := st1.errs ++ r.2 }

/-- `_generate_model_for_module(mod, classes, modules)` with fuel: the visit of
the module itself followed by the recursion into the sorted unvisited child
modules (line 213). -/
def generateModelForModule (menv : MEnv) (cenv : CEnv) : Nat → Nat → St → Option St
  | 0, _, _ => none
  | f + 1, mid, st =>
    genList (generateModelForModule menv cenv f)
      (newModules menv (getModule menv mid) (insert mid st.visited))
      (visitModule menv cenv mid st)

/-- Fuel that theorem `c6_traversal_terminates` proves sufficient for any
module graph: two more than the number of modules in the environment. -/
def traversalFuel (menv : MEnv) : Nat := menv.mods.length + 2

/-- `_generate_model()`: run the traversal from the root `otio` module on an
empty `classes` dict and `modules` set. -/
def generateModel (menv : MEnv) (cenv : CEnv) (root : Nat) : Option St :=
  generateModelForModule menv cenv (traversalFuel menv) root {}

/-! ### The field lines of the renderer (source lines 314-322)

`_write_documentation` walks `sorted(model[cl].items())` once, writing a line
into both documents for every key not in `SKIP_KEYS`; `retainedItems` is that
shared iteration. -/

/-- `sorted(model[cl].items())`: the items sorted by key (keys of a dict are
unique, so Python never compares the values). -/
def sortedItems (cm : ClsModel) : List (String × Option String) :=
  List.insertionSort (fun a b => strLe a.1 b.1 = true) cm

/-- The items that survive the `if key in SKIP_KEYS: continue` filter, in the
order both documents render them. -/
def retainedItems (cm : ClsModel) : List (String × Option String) :=
  (sortedItems cm).filter fun kv => decide (kv.1 ∉ SKIP_KEYS)

/-! ### Helper lemmas about the fetch loop and extraction -/

/-- The fetch loop in closed form: its outcome is a function of the class-level
lookup of the plain key alone. -/
theorem resolveKey_spec (info : ClassInfo) (k : String) :
    resolveKey info k =
      (match info.attr k with
       | AttrRes.missing => ResolveRes.unresolved
       | AttrRes.prop d => ResolveRes.resolved d
       | AttrRes.other _ => ResolveRes.resolved (some "")) := by
  cases h : info.attr k <;> simp [resolveKey, attemptFetch, h, getdocOf]

theorem mem_mapFst_aset {κ β : Type} [DecidableEq κ] (k' k : κ) (v : β) (d : List (κ × β)) :
    k' ∈ (aset k v d).map Prod.fst ↔ k' = k ∨ k' ∈ d.map Prod.fst := by
  induction d with
  | nil => simp [aset]
  | cons hd t ih =>
    obtain ⟨k0, v0⟩ := hd
    by_cases hk : k0 = k
    · subst hk
      rw [show aset k0 v ((k0, v0) :: t) = (k0, v) :: t from by simp [aset]]
      simp only [List.map_cons, List.mem_cons]
      tauto
    · rw [show aset k v ((k0, v0) :: t) = (k0, v0) :: aset k v t from by simp [aset, hk]]
      simp only [List.map_cons, List.mem_cons, ih]
      tauto


theorem mapFst_filter {β : Type} (p : String → Bool) (l : List (String × β)) :
    (l.filter fun kv => p kv.1).map Prod.fst = (l.map Prod.fst).filter p := by
  induction l with
  | nil => rfl
  | cons hd t ih =>
    by_cases h : p hd.1 <;> simp [List.filter_cons, h, ih]

theorem mem_keys_extract_foldl (info : ClassInfo) (ks : List String)
    (acc : ClsModel × List String) (k : String) :
    k ∈ ((ks.foldl (extractStep info) acc).1.map Prod.fst) ↔
      k ∈ acc.1.map Prod.fst ∨
        (k ∈ ks ∧ k ∉ SKIP_KEYS ∧ info.attr k ≠ AttrRes.missing) := by
  induction ks generalizing acc with
  | nil => simp
  | cons k0 t ih =>
    rw [List.foldl_cons, ih]
    by_cases hskip : k0 ∈ SKIP_KEYS
    · rw [show extractStep info acc k0 = acc from by simp [extractStep, hskip]]
      by_cases hk : k = k0
      · subst hk
        simp [hskip]
      · simp only [List.mem_cons]
        tauto
    · rcases hres : resolveKey info k0 with v | _
      · have hattr : info.attr k0 ≠ AttrRes.missing := by
          rw [resolveKey_spec] at hres
          cases h0 : info.attr k0 <;> simp [h0] at hres ⊢
        rw [show extractStep info acc k0 = (aset k0 v acc.1, acc.2) from by
          simp [extractStep, hskip, hres]]
        rw [show ((aset k0 v acc.1, acc.2) : ClsModel × List String).1 = aset k0 v acc.1
          from rfl]
        rw [mem_mapFst_aset]
        by_cases hk : k = k0
        · subst hk
          simp [hskip, hattr]
        · simp only [List.mem_cons]
          tauto
      · have hattr : info.attr k0 = AttrRes.missing := by
          rw [resolveKey_spec] at hres
          cases h0 : info.attr k0 <;> simp [h0] at hres ⊢
        rw [show extractStep info acc k0 =
            (acc.1, acc.2 ++ ["ERROR: could not fetch property: " ++ k0]) from by
          simp [extractStep, hskip, hres]]
        by_cases hk : k = k0
        · subst hk
          simp [hattr]
        · simp only [List.mem_cons]
          tauto

/-- Key membership of the extracted per-class dict. -/
theorem mem_keys_extractClass (info : ClassInfo) (k : String) :
    k ∈ ((extractClass info).1.map Prod.fst) ↔
      k = "OTIO_SCHEMA" ∨
        (k ∈ info.serializedKeys ∧ k ∉ SKIP_KEYS ∧ info.attr k ≠ AttrRes.missing) := by
  unfold extractClass
  rw [mem_mapFst_aset, mem_keys_extract_foldl]
  simp

/-! ### Claims C5, C2 and C1 -/

/-- C5: the documentation text stored for a field key `k` of a class is fully
determined by the class-level attribute lookup of `k`: a property stores its
docstring (possibly `None`), a non-property attribute stores the empty string,
and a raising lookup leaves the key unresolved; moreover the third fetcher
expression evaluates to the empty string whenever it is evaluated without
error, so the underscore-prefixed and instance-based fallbacks never determine
the stored value. -/
theorem c5_doc_text_determined_by_class_attr (info : ClassInfo) (k : String) :
    resolveKey info k =
      (match info.attr k with
       | AttrRes.missing => ResolveRes.unresolved
       | AttrRes.prop d => ResolveRes.resolved d
       | AttrRes.other _ => ResolveRes.resolved (some "")) ∧
    (attemptFetch info k 2 = FetchOutcome.raised ∨
      attemptFetch info k 2 = FetchOutcome.ok (some "")) := by
  refine ⟨resolveKey_spec info k, ?_⟩
  cases h : info.attr k
  · simp [attemptFetch, h]
  · cases h2 : info.instAttr k <;> simp [attemptFetch, h, h2]
  · simp [attemptFetch, h]

/-- A class with no class-level attribute `b` but a documented property under
the private name `_b`: the situation the spec's second strategy claims to
resolve. -/
def infoC2 : ClassInfo :=
  { attr := fun s => if s = "_b" then AttrRes.prop (some "private doc") else AttrRes.missing }

/-- C2 is false as stated: for a field key whose class-level lookup raises but
whose underscore-prefixed accessor is a documented property, the fetch loop
still ends unresolved, because every fetcher iteration re-evaluates the guard
`isinstance(getattr(cl, k), property)` on the plain key and re-raises before
the underscore fetcher can produce a value. -/
theorem c2_counterexample_private_accessor_not_resolved :
    infoC2.attr "b" = AttrRes.missing ∧
    infoC2.attr ("_" ++ "b") = AttrRes.prop (some "private doc") ∧
    resolveKey infoC2 "b" = ResolveRes.unresolved := by
  refine ⟨by decide, by decide, by decide⟩

/-- C2 (amended): documentation resolution tries the three fetchers in order
and a raising attempt falls through to the next, but each attempt is guarded
by the class-level lookup of the plain key, so the outcome depends on that
lookup alone: two classes whose class-level lookup of `k` agree resolve `k`
identically, whatever their underscore-prefixed accessors and instance
attributes are; in particular the second and third strategies never resolve a
field, and the diagnostic (non-fatal) fires exactly when the plain class-level
lookup raises. -/
theorem c2_resolution_depends_only_on_plain_class_lookup (i1 i2 : ClassInfo)
    (k : String) (h : i1.attr k = i2.attr k) :
    resolveKey i1 k = resolveKey i2 k := by
  rw [resolveKey_spec, resolveKey_spec, h]

/-- Witness for C2 (amended): `infoC2` resolves `"b"` exactly as a class with
no attributes at all, although `infoC2` has a documented private accessor. -/
theorem c2_resolution_depends_only_on_plain_class_lookup_witness :
    infoC2.attr "b" = ({} : ClassInfo).attr "b" ∧
    resolveKey infoC2 "b" = resolveKey ({} : ClassInfo) "b" :=
  ⟨by decide, c2_resolution_depends_only_on_plain_class_lookup infoC2 {} "b" (by decide)⟩

/-- A class one of whose serialized keys (`"x"`) has no accessor at all. -/
def infoC1 : ClassInfo :=
  { serializedKeys := ["OTIO_SCHEMA", "x"], schemaLabel := "Foo.1" }

/-- C1 is false as stated: a serialized key whose class-level lookup raises is
dropped from the rendered field keys (after the `stderr` diagnostic), so the
rendered set can be strictly smaller than the serialized keys minus the two
excluded keys. -/
theorem c1_counterexample_unresolved_key_dropped :
    "x" ∈ infoC1.serializedKeys ∧ "x" ∉ SKIP_KEYS ∧
    "x" ∉ (retainedItems (extractClass infoC1).1).map Prod.fst := by
  refine ⟨by decide, by decide, by decide⟩

/-- C1 (amended): for every type recorded in the Model, the set of field keys
rendered in both output documents equals the keys of the JSON-serialized
default-constructed instance minus the two fixed excluded keys
(`"OTIO_SCHEMA"` and `"children"`) and minus any key whose class-level
attribute lookup raises; in particular when every retained key has an
accessor, the two sets are equal and no other key is added or removed. -/
theorem c1_rendered_keys_eq_serialized_minus_skip (info : ClassInfo)
    (h : ∀ k ∈ info.serializedKeys, k ∉ SKIP_KEYS → info.attr k ≠ AttrRes.missing)
    (k : String) :
    k ∈ (retainedItems (extractClass info).1).map Prod.fst ↔
      (k ∈ info.serializedKeys ∧ k ∉ SKIP_KEYS) := by
  unfold retainedItems
  rw [mapFst_filter (fun s => decide (s ∉ SKIP_KEYS)), List.mem_filter]
  have hp : ((sortedItems (extractClass info).1).map Prod.fst).Perm
      (((extractClass info).1).map Prod.fst) :=
    (List.perm_insertionSort _ _).map _
  rw [hp.mem_iff, mem_keys_extractClass]
  constructor
  · rintro ⟨hmem | ⟨hks, hnk, _⟩, hdec⟩
    · rw [hmem] at hdec
      simp [SKIP_KEYS] at hdec
    · exact ⟨hks, hnk⟩
  · rintro ⟨hks, hnk⟩
    exact ⟨Or.inr ⟨hks, hnk, h k hks hnk⟩, by simpa using hnk⟩

/-- A class whose serialized keys all resolve. -/
def infoC1w : ClassInfo :=
  { serializedKeys := ["OTIO_SCHEMA", "name", "children"],
    schemaLabel := "Foo.1",
    attr := fun s => if s = "name" then AttrRes.prop (some "the name") else AttrRes.missing }

/-- Witness for C1 (amended) at a concrete class whose every retained key has
an accessor. -/
theorem c1_rendered_keys_eq_serialized_minus_skip_witness :
    (∀ k ∈ infoC1w.serializedKeys, k ∉ SKIP_KEYS → infoC1w.attr k ≠ AttrRes.missing) ∧
    ("name" ∈ (retainedItems (extractClass infoC1w).1).map Prod.fst ↔
      ("name" ∈ infoC1w.serializedKeys ∧ "name" ∉ SKIP_KEYS)) :=
  ⟨by decide, c1_rendered_keys_eq_serialized_minus_skip infoC1w (by decide) "name"⟩

/-! ### Dict lemmas and claim C4 -/

theorem alookup_aset {κ β : Type} [DecidableEq κ] (c k : κ) (v : β) (d : List (κ × β)) :
    alookup c (aset k v d) = if k = c then some v else alookup c d := by
  induction d with
  | nil => simp [aset, alookup]
  | cons hd t ih =>
    obtain ⟨k0, v0⟩ := hd
    by_cases h0 : k0 = k
    · subst h0
      rw [show aset k0 v ((k0, v0) :: t) = (k0, v) :: t from by simp [aset]]
      by_cases hc : k0 = c <;> simp [alookup, hc]
    · rw [show aset k v ((k0, v0) :: t) = (k0, v0) :: aset k v t from by simp [aset, h0]]
      by_cases hc : k0 = c
      · subst hc
        have : ¬k = k0 := fun he => h0 he.symm
        simp [alookup, this]
      · simp [alookup, hc, ih]

theorem alookup_dictUpdate_foldl {κ β : Type} [DecidableEq κ] (c : κ)
    (u : List (κ × β)) (d : List (κ × β)) (h : c ∉ u.map Prod.fst) :
    alookup c (u.foldl (fun acc kv => aset kv.1 kv.2 acc) d) = alookup c d := by
  induction u generalizing d with
  | nil => rfl
  | cons hd t ih =>
    obtain ⟨k0, v0⟩ := hd
    simp only [List.map_cons, List.mem_cons] at h
    push_neg at h
    rw [List.foldl_cons, ih _ h.2, alookup_aset, if_neg (fun he => h.1 he.symm)]

/-- `d.update(u)` does not change the binding of a key absent from `u`. -/
theorem alookup_dictUpdate {κ β : Type} [DecidableEq κ] (c : κ)
    (d u : List (κ × β)) (h : c ∉ u.map Prod.fst) :
    alookup c (dictUpdate d u) = alookup c d :=
  alookup_dictUpdate_foldl c u d h

/-- Characterization of the `serializable_classes` list comprehension. -/
theorem mem_candidateClasses (cenv : CEnv) (m : ModuleInfo)
    (classes : List (Nat × ClsModel)) (c : Nat) :
    c ∈ candidateClasses cenv m classes ↔
      Entry.cls c ∈ m.members ∧
        ((inKeys c classes = false ∧ (cenv c).isSerializableSubclass = true) ∨
          (cenv c).isOpentimeValue = true) := by
  unfold candidateClasses
  rw [List.mem_filterMap]
  constructor
  · rintro ⟨e, he, hsome⟩
    cases e with
    | cls c' =>
      dsimp only at hsome
      split_ifs at hsome with hcond
      cases hsome
      refine ⟨he, ?_⟩
      simpa [Bool.or_eq_true, Bool.and_eq_true, Bool.not_eq_true'] using hcond
    | mod j => simp at hsome
    | misc => simp at hsome
  · rintro ⟨hmem, hcond⟩
    refine ⟨Entry.cls c, hmem, ?_⟩
    have hcond' : (!inKeys c classes && (cenv c).isSerializableSubclass
        || (cenv c).isOpentimeValue) = true := by
      simpa [Bool.or_eq_true, Bool.and_eq_true, Bool.not_eq_true'] using hcond
    simp [hcond']

/-- Keys added by the extraction loop come from the non-skipped candidates. -/
theorem mem_keys_extractLocal_foldl (cenv : CEnv) (cands : List Nat)
    (acc : List (Nat × ClsModel) × List String) (c : Nat)
    (h : c ∈ (cands.foldl (extractLocalStep cenv) acc).1.map Prod.fst) :
    c ∈ acc.1.map Prod.fst ∨ (c ∈ cands ∧ (cenv c).isSkipClass = false) := by
  induction cands generalizing acc with
  | nil => exact Or.inl h
  | cons c0 t ih =>
    rw [List.foldl_cons] at h
    rcases ih _ h with h' | h'
    · by_cases hskip : (cenv c0).isSkipClass
      · rw [show extractLocalStep cenv acc c0 = acc from by
          simp [extractLocalStep, hskip]] at h'
        exact Or.inl h'
      · rw [show extractLocalStep cenv acc c0 =
            (aset c0 (extractClass (cenv c0)).1 acc.1, acc.2 ++ (extractClass (cenv c0)).2)
            from by simp [extractLocalStep, hskip]] at h'
        rcases (mem_mapFst_aset c c0 _ acc.1).1 h' with rfl | h''
        · exact Or.inr ⟨List.mem_cons_self _ _, by simpa using hskip⟩
        · exact Or.inl h''
    · exact Or.inr ⟨List.mem_cons_of_mem _ h'.1, h'.2⟩

/-- The concrete allow-listed value type of the counterexample to C4
(standing for `otio.opentime.RationalTime`). -/
def cenvC4 : CEnv := fun c =>
  if c = 5 then
    { name := "RationalTime", module := "opentimelineio._otio",
      isOpentimeValue := true,
      serializedKeys := ["OTIO_SCHEMA", "value", "rate"],
      schemaLabel := "RationalTime.1",
      attr := fun s =>
        if s = "value" then AttrRes.prop (some "the value")
        else if s = "rate" then AttrRes.prop (some "the rate")
        else AttrRes.missing }
  else {}

/-- A module whose dict holds that allow-listed class. -/
def menvC4 : MEnv :=
  { mods := [{ name := "opentimelineio.opentime", strName := "ot",
               members := [Entry.cls 5] }] }

/-- A running `classes` dict that already records class `5`. -/
def classesC4 : List (Nat × ClsModel) := [(5, [("stale", none)])]

/-- C4 is false as stated: the `thing not in classes` dedup guards only the
`SerializableObject`-subclass branch of the comprehension, so an allow-listed
value type already recorded in the running model is collected again and
re-extracted (its model entry is overwritten) at every module where it
appears. -/
theorem c4_counterexample_allowlisted_reextracted :
    inKeys 5 classesC4 = true ∧
    5 ∈ candidateClasses cenvC4 (getModule menvC4 0) classesC4 ∧
    ((generateModelForModule menvC4 cenvC4 (traversalFuel menvC4) 0
        { classes := classesC4 }).map fun s => alookup 5 s.classes) ≠
      some (alookup 5 classesC4) := by
  refine ⟨by decide, by decide, by decide⟩

/-- C4 (amended): at every visited namespace, extraction is deduplicated by
type identity against the running model for the `SerializableObject`-subclass
candidates: such a type already recorded when the candidates are collected is
not collected or extracted again, and its model entry is untouched; the three
allow-listed opentime value types are exempt from this dedup and are
re-extracted wherever they appear. -/
theorem c4_dedup_applies_to_marker_subclasses (cenv : CEnv) (m : ModuleInfo)
    (classes : List (Nat × ClsModel)) (c : Nat)
    (h1 : inKeys c classes = true) (h2 : (cenv c).isOpentimeValue = false) :
    c ∉ candidateClasses cenv m classes ∧
    alookup c (dictUpdate classes (extractLocal cenv (candidateClasses cenv m classes)).1) =
      alookup c classes := by
  have hnot : c ∉ candidateClasses cenv m classes := by
    rw [mem_candidateClasses]
    rintro ⟨-, ⟨hf, -⟩ | hallow⟩
    · rw [h1] at hf
      cases hf
    · rw [h2] at hallow
      cases hallow
  refine ⟨hnot, ?_⟩
  apply alookup_dictUpdate
  intro hmem
  rcases mem_keys_extractLocal_foldl cenv _ _ c hmem with h' | h'
  · simp at h'
  · exact hnot h'.1

/-- A recorded marker-subclass candidate for the witness of C4 (amended). -/
def cenvC4w : CEnv := fun c =>
  if c = 3 then
    { name := "Clip", module := "opentimelineio._otio",
      isSerializableSubclass := true,
      serializedKeys := ["OTIO_SCHEMA", "name"],
      schemaLabel := "Clip.2",
      attr := fun s => if s = "name" then AttrRes.prop (some "clip name")
        else AttrRes.missing }
  else {}

/-- A module whose dict holds that subclass candidate. -/
def modC4w : ModuleInfo :=
  { name := "opentimelineio.schema", strName := "sch", members := [Entry.cls 3] }

/-- A running `classes` dict that already records class `3`. -/
def classesC4w : List (Nat × ClsModel) := [(3, [("OTIO_SCHEMA", some "Clip.2")])]

/-- Witness for C4 (amended) at a concrete recorded subclass candidate. -/
theorem c4_dedup_applies_to_marker_subclasses_witness :
    (inKeys 3 classesC4w = true ∧ (cenvC4w 3).isOpentimeValue = false) ∧
    (3 ∉ candidateClasses cenvC4w modC4w classesC4w ∧
      alookup 3 (dictUpdate classesC4w
          (extractLocal cenvC4w (candidateClasses cenvC4w modC4w classesC4w)).1) =
        alookup 3 classesC4w) :=
  ⟨⟨by decide, by decide⟩,
    c4_dedup_applies_to_marker_subclasses cenvC4w modC4w classesC4w 3
      (by decide) (by decide)⟩

/-! ### Traversal lemmas: unfolding, monotonicity, fuel sufficiency -/

theorem visitModule_visited (menv : MEnv) (cenv : CEnv) (mid : Nat) (st : St) :
    (visitModule menv cenv mid st).visited = insert mid st.visited := rfl

theorem visitModule_log (menv : MEnv) (cenv : CEnv) (mid : Nat) (st : St) :
    (visitModule menv cenv mid st).log =
      st.log ++ [(mid, decide (mid ∈ st.visited))] := rfl

theorem visitModule_classes (menv : MEnv) (cenv : CEnv) (mid : Nat) (st : St) :
    (visitModule menv cenv mid st).classes =
      dictUpdate st.classes
        (extractLocal cenv (candidateClasses cenv (getModule menv mid) st.classes)).1 := rfl

theorem generateModelForModule_succ (menv : MEnv) (cenv : CEnv) (f mid : Nat) (st : St) :
    generateModelForModule menv cenv (f + 1) mid st =
      genList (generateModelForModule menv cenv f)
        (newModules menv (getModule menv mid) (insert mid st.visited))
        (visitModule menv cenv mid st) := rfl

theorem genList_visited_mono (g : Nat → St → Option St)
    (hg : ∀ k s s', g k s = some s' → s.visited ⊆ s'.visited) :
    ∀ ks s s', genList g ks s = some s' → s.visited ⊆ s'.visited := by
  intro ks
  induction ks with
  | nil =>
    intro s s' h
    simp only [genList, Option.some.injEq] at h
    subst h
    exact Finset.Subset.refl _
  | cons k t ih =>
    intro s s' h
    cases hk : g k s with
    | none =>
      simp only [genList, hk] at h
      exact Option.noConfusion h
    | some s1 =>
      simp only [genList, hk] at h
      exact (hg k s s1 hk).trans (ih s1 s' h)

theorem gen_visited_mono (menv : MEnv) (cenv : CEnv) :
    ∀ f mid st st', generateModelForModule menv cenv f mid st = some st' →
      st.visited ⊆ st'.visited := by
  intro f
  induction f with
  | zero =>
    intro mid st st' h
    simp [generateModelForModule] at h
  | succ f ih =>
    intro mid st st' h
    rw [generateModelForModule_succ] at h
    have h2 := genList_visited_mono _ (fun k s s' hs => ih k s s' hs) _ _ _ h
    rw [visitModule_visited] at h2
    exact (Finset.subset_insert mid st.visited).trans h2

/-- The number of in-range modules not yet visited: the measure the shared
visitation set bounds. -/
def uCount (menv : MEnv) (V : Finset ℕ) : ℕ :=
  ((Finset.range menv.mods.length).filter (fun i => i ∉ V)).card

theorem uCount_mono (menv : MEnv) {V V' : Finset ℕ} (h : V ⊆ V') :
    uCount menv V' ≤ uCount menv V := by
  apply Finset.card_le_card
  intro a ha
  rw [Finset.mem_filter] at ha ⊢
  exact ⟨ha.1, fun hmem => ha.2 (h hmem)⟩

theorem uCount_insert_lt (menv : MEnv) {V : Finset ℕ} {k : Nat}
    (hk : k < menv.mods.length) (hV : k ∉ V) :
    uCount menv (insert k V) < uCount menv V := by
  have h1 : (Finset.range menv.mods.length).filter (fun i => i ∉ insert k V) ⊆
      (Finset.range menv.mods.length).filter (fun i => i ∉ V) := by
    intro a ha
    rw [Finset.mem_filter] at ha ⊢
    exact ⟨ha.1, fun hmem => ha.2 (Finset.mem_insert_of_mem hmem)⟩
  have h2 : k ∈ (Finset.range menv.mods.length).filter (fun i => i ∉ V) := by
    rw [Finset.mem_filter]
    exact ⟨Finset.mem_range.2 hk, hV⟩
  have h3 : k ∉ (Finset.range menv.mods.length).filter (fun i => i ∉ insert k V) := by
    rw [Finset.mem_filter]
    rintro ⟨-, habs⟩
    exact habs (Finset.mem_insert_self _ _)
  exact Finset.card_lt_card ((Finset.ssubset_iff_of_subset h1).2 ⟨k, h2, h3⟩)

theorem uCount_le_length (menv : MEnv) (V : Finset ℕ) :
    uCount menv V ≤ menv.mods.length := by
  calc uCount menv V ≤ (Finset.range menv.mods.length).card := Finset.card_filter_le _ _
  _ = menv.mods.length := Finset.card_range _

theorem not_visited_of_mem_newModules (menv : MEnv) (m : ModuleInfo) (V : Finset ℕ)
    (k : Nat) (h : k ∈ newModules menv m V) : k ∉ V := by
  unfold newModules at h
  rw [(List.perm_insertionSort _ _).mem_iff, List.mem_filterMap] at h
  obtain ⟨e, he, hsome⟩ := h
  cases e with
  | cls c => simp at hsome
  | misc => simp at hsome
  | mod j =>
    dsimp only at hsome
    split_ifs at hsome with hcond
    cases hsome
    simp only [Bool.and_eq_true, decide_eq_true_eq] at hcond
    exact hcond.1

theorem newModules_nil (menv : MEnv) (m : ModuleInfo) (V : Finset ℕ)
    (h : m.members = []) : newModules menv m V = [] := by
  unfold newModules
  rw [h]
  rfl

theorem gen_empty_module (menv : MEnv) (cenv : CEnv) (f mid : Nat) (st : St)
    (hm : (getModule menv mid).members = []) :
    generateModelForModule menv cenv (f + 1) mid st =
      some (visitModule menv cenv mid st) := by
  rw [generateModelForModule_succ, newModules_nil menv _ _ hm]
  rfl

theorem gen_fuel_sufficient (menv : MEnv) (cenv : CEnv) :
    ∀ f mid st, uCount menv (insert mid st.visited) + 2 ≤ f →
      (generateModelForModule menv cenv f mid st).isSome = true := by
  intro f
  induction f with
  | zero =>
    intro mid st h
    exact absurd h (by omega)
  | succ f ih =>
    intro mid st h
    rw [generateModelForModule_succ]
    have hb : uCount menv (insert mid st.visited) + 1 ≤ f := by omega
    have inner : ∀ ks s', insert mid st.visited ⊆ s'.visited →
        (∀ k ∈ ks, k ∉ insert mid st.visited) →
        (genList (generateModelForModule menv cenv f) ks s').isSome = true := by
      intro ks
      induction ks with
      | nil =>
        intro s' _ _
        rfl
      | cons k t iht =>
        intro s' hsub hks
        have hkV2 : k ∉ insert mid st.visited := hks k (List.mem_cons_self _ _)
        have hsome : (generateModelForModule menv cenv f k s').isSome = true := by
          by_cases hrange : k < menv.mods.length
          · apply ih
            have e1 : uCount menv (insert k s'.visited) ≤
                uCount menv (insert k (insert mid st.visited)) :=
              uCount_mono menv (Finset.insert_subset_insert _ hsub)
            have e2 : uCount menv (insert k (insert mid st.visited)) <
                uCount menv (insert mid st.visited) :=
              uCount_insert_lt menv hrange hkV2
            omega
          · have hm : (getModule menv k).members = [] := by
              unfold getModule
              rw [List.getD_eq_default]
              omega
            obtain ⟨f', rfl⟩ : ∃ f', f = f' + 1 := ⟨f - 1, by omega⟩
            rw [gen_empty_module menv cenv f' k s' hm]
            rfl
        obtain ⟨s'', hs''⟩ := Option.isSome_iff_exists.1 hsome
        simp only [genList, hs'']
        exact iht s'' (hsub.trans (gen_visited_mono menv cenv f k s' s'' hs''))
          (fun x hx => hks x (List.mem_cons_of_mem _ hx))
    apply inner
    · rw [visitModule_visited]
    · intro k hk
      exact not_visited_of_mem_newModules menv _ _ k hk

/-- C6: the recursive traversal terminates for every finite namespace graph,
including graphs with cycles and back-references: with fuel two more than the
number of modules (a bound the shared visitation set provides, since every
recursion step either visits a new namespace or recurses only into namespaces
unvisited when its list was computed), the run always completes. -/
theorem c6_traversal_terminates (menv : MEnv) (cenv : CEnv) (root : Nat) :
    (generateModel menv cenv root).isSome = true := by
  unfold generateModel traversalFuel
  apply gen_fuel_sufficient
  show uCount menv (insert root (∅ : Finset ℕ)) + 2 ≤ menv.mods.length + 2
  have h1 : uCount menv (insert root (∅ : Finset ℕ)) ≤ menv.mods.length :=
    uCount_le_length menv _
  omega

/-! ### Claim C3: how often is a namespace processed? -/

/-- Number of log entries recording an invocation of module `m` that found it
not yet in the visitation set. -/
def countUnvisitedInvocations (m : Nat) (l : List (Nat × Bool)) : ℕ :=
  (l.filter fun e => e.1 == m && !e.2).length

/-- Bound on the growth of the unvisited-invocation count of module `m`
between two states of the traversal. -/
def LogBnd (m : Nat) (s s' : St) : Prop :=
  (m ∈ s.visited →
    countUnvisitedInvocations m s'.log = countUnvisitedInvocations m s.log ∧
      m ∈ s'.visited) ∧
  (m ∉ s.visited →
    countUnvisitedInvocations m s'.log ≤ countUnvisitedInvocations m s.log + 1 ∧
      (m ∉ s'.visited →
        countUnvisitedInvocations m s'.log = countUnvisitedInvocations m s.log))

theorem LogBnd_trans {m : Nat} {s s' s'' : St}
    (h1 : LogBnd m s s') (h2 : LogBnd m s' s'') : LogBnd m s s'' := by
  obtain ⟨h1v, h1n⟩ := h1
  obtain ⟨h2v, h2n⟩ := h2
  constructor
  · intro hm
    obtain ⟨e1, hm'⟩ := h1v hm
    obtain ⟨e2, hm''⟩ := h2v hm'
    exact ⟨by omega, hm''⟩
  · intro hm
    by_cases hm' : m ∈ s'.visited
    · obtain ⟨b1, -⟩ := h1n hm
      obtain ⟨e2, hm''⟩ := h2v hm'
      exact ⟨by omega, fun habs => absurd hm'' habs⟩
    · obtain ⟨b1, e1⟩ := h1n hm
      have e1' := e1 hm'
      obtain ⟨b2, e2⟩ := h2n hm'
      exact ⟨by omega, fun h'' => by rw [e2 h'', e1']⟩

theorem countUnvisitedInvocations_append_single (m mid : Nat) (b : Bool)
    (l : List (Nat × Bool)) :
    countUnvisitedInvocations m (l ++ [(mid, b)]) =
      countUnvisitedInvocations m l + (if mid = m ∧ b = false then 1 else 0) := by
  unfold countUnvisitedInvocations
  rw [List.filter_append, List.length_append]
  congr 1
  by_cases hm : mid = m
  · subst hm
    cases b <;> simp
  · have hfalse : (mid == m && !b) = false := by simp [hm]
    simp [List.filter, hfalse, hm]

theorem LogBnd_visit (menv : MEnv) (cenv : CEnv) (mid m : Nat) (s : St) :
    LogBnd m s (visitModule menv cenv mid s) := by
  have hlog := visitModule_log menv cenv mid s
  have hvis := visitModule_visited menv cenv mid s
  constructor
  · intro hm
    refine ⟨?_, by rw [hvis]; exact Finset.mem_insert_of_mem hm⟩
    rw [hlog, countUnvisitedInvocations_append_single]
    by_cases hmm : mid = m
    · subst hmm
      simp [hm]
    · simp [hmm]
  · intro hm
    by_cases hmm : mid = m
    · subst hmm
      constructor
      · rw [hlog, countUnvisitedInvocations_append_single]
        split_ifs <;> omega
      · intro habs
        rw [hvis] at habs
        exact absurd (Finset.mem_insert_self _ _) habs
    · have he : countUnvisitedInvocations m (visitModule menv cenv mid s).log =
          countUnvisitedInvocations m s.log := by
        rw [hlog, countUnvisitedInvocations_append_single]
        simp [hmm]
      exact ⟨by omega, fun _ => he⟩

theorem genList_LogBnd (m : Nat) (g : Nat → St → Option St)
    (hg : ∀ k s s', g k s = some s' → LogBnd m s s') :
    ∀ ks s s', genList g ks s = some s' → LogBnd m s s' := by
  intro ks
  induction ks with
  | nil =>
    intro s s' h
    simp only [genList, Option.some.injEq] at h
    subst h
    exact ⟨fun hm => ⟨rfl, hm⟩, fun _ => ⟨Nat.le_succ _, fun _ => rfl⟩⟩
  | cons k t ih =>
    intro s s' h
    cases hk : g k s with
    | none =>
      simp only [genList, hk] at h
      exact Option.noConfusion h
    | some s1 =>
      simp only [genList, hk] at h
      exact LogBnd_trans (hg k s s1 hk) (ih s1 s' h)

theorem gen_LogBnd (menv : MEnv) (cenv : CEnv) (m : Nat) :
    ∀ f mid st st', generateModelForModule menv cenv f mid st = some st' →
      LogBnd m st st' := by
  intro f
  induction f with
  | zero =>
    intro mid st st' h
    simp [generateModelForModule] at h
  | succ f ih =>
    intro mid st st' h
    rw [generateModelForModule_succ] at h
    exact LogBnd_trans (LogBnd_visit menv cenv mid m st)
      (genList_LogBnd m _ (fun k s s' hs => ih k s s' hs) _ _ _ h)

/-- The namespace graph of the counterexample to C3: the root (module `0`)
holds child modules `1` and `2`; module `1` also holds module `2`; the
recursion order (by `str(mod)`) visits `1` before `2`. -/
def menvC3 : MEnv :=
  { mods :=
      [ { name := "opentimelineio", strName := "<module a>",
          members := [Entry.mod 1, Entry.mod 2] },
        { name := "opentimelineio.b", strName := "<module b>",
          members := [Entry.mod 2] },
        { name := "opentimelineio.c", strName := "<module c>",
          members := [] } ] }

/-- A class environment with no classes anywhere. -/
def cenvC3 : CEnv := fun _ => {}

/-- C3 is false as stated: module `2` is reachable through two parents (the
root and module `1`); the root computes its recursion list before descending,
module `1`'s subtree visits module `2` first, and the root then invokes the
extraction routine on module `2` a second time — the log records two
invocations of module `2`. -/
theorem c3_counterexample_module_invoked_twice :
    ((generateModel menvC3 cenvC3 0).map fun st =>
      (st.log.filter fun e => e.1 == 2).length) = some 2 := by
  decide

/-- C3 (amended): every namespace is invoked at most once while it is not yet
in the visitation set — so its types are collected into the model at most once
per run — but a namespace reachable through several distinct parents can be
re-invoked after a sibling branch has already visited it, because each parent
computes its recursion list before descending; any such re-invocation finds
the namespace already in the shared visitation set. -/
theorem c3_unvisited_invocation_at_most_once (menv : MEnv) (cenv : CEnv)
    (root : Nat) (st' : St) (h : generateModel menv cenv root = some st')
    (m : Nat) : countUnvisitedInvocations m st'.log ≤ 1 := by
  have hb := gen_LogBnd menv cenv m _ root {} st' h
  have h0 : m ∉ ({} : St).visited := Finset.not_mem_empty m
  obtain ⟨b, -⟩ := hb.2 h0
  simpa [countUnvisitedInvocations] using b

/-- Witness for C3 (amended) on the concrete counterexample graph: even there,
module `2` is invoked only once in the unvisited state. -/
theorem c3_unvisited_invocation_at_most_once_witness :
    (generateModel menvC3 cenvC3 0).elim True
      (fun st' => countUnvisitedInvocations 2 st'.log ≤ 1) := by
  cases h : generateModel menvC3 cenvC3 0 with
  | none => trivial
  | some st' => exact c3_unvisited_invocation_at_most_once menvC3 cenvC3 0 st' h 2

/-! ### Claim C9: the class denylist -/

theorem genList_preserve (P : St → Prop) (g : Nat → St → Option St)
    (hg : ∀ k s s', g k s = some s' → P s → P s') :
    ∀ ks s s', genList g ks s = some s' → P s → P s' := by
  intro ks
  induction ks with
  | nil =>
    intro s s' h hp
    simp only [genList, Option.some.injEq] at h
    subst h
    exact hp
  | cons k t ih =>
    intro s s' h hp
    cases hk : g k s with
    | none =>
      simp only [genList, hk] at h
      exact Option.noConfusion h
    | some s1 =>
      simp only [genList, hk] at h
      exact ih s1 s' h (hg k s s1 hk hp)

theorem inKeys_visitModule_skip (menv : MEnv) (cenv : CEnv) (mid : Nat) (st : St)
    (c : Nat) (hskip : (cenv c).isSkipClass = true)
    (h : inKeys c st.classes = false) :
    inKeys c (visitModule menv cenv mid st).classes = false := by
  rw [visitModule_classes]
  unfold inKeys at h ⊢
  rw [alookup_dictUpdate]
  · exact h
  · intro hmem
    rcases mem_keys_extractLocal_foldl cenv _ _ c hmem with h' | h'
    · simp at h'
    · rw [hskip] at h'
      exact Bool.noConfusion h'.2

theorem gen_inKeys_skip (menv : MEnv) (cenv : CEnv) (c : Nat)
    (hskip : (cenv c).isSkipClass = true) :
    ∀ f mid st st', generateModelForModule menv cenv f mid st = some st' →
      inKeys c st.classes = false → inKeys c st'.classes = false := by
  intro f
  induction f with
  | zero =>
    intro mid st st' h
    simp [generateModelForModule] at h
  | succ f ih =>
    intro mid st st' h hp
    rw [generateModelForModule_succ] at h
    exact genList_preserve (fun s => inKeys c s.classes = false) _
      (fun k s s' hs => ih k s s' hs) _ _ _ h
      (inKeys_visitModule_skip menv cenv mid st c hskip hp)

theorem foldl_congr_fun {α β : Type} (f g : β → α → β) (h : ∀ b a, f b a = g b a) :
    ∀ (l : List α) (b : β), l.foldl f b = l.foldl g b := by
  intro l
  induction l with
  | nil => intro b; rfl
  | cons a t ih =>
    intro b
    rw [List.foldl_cons, List.foldl_cons, h b a]
    exact ih _

theorem candidateClasses_congr (cenv₁ cenv₂ : CEnv) (c : Nat)
    (hsub : (cenv₂ c).isSerializableSubclass = (cenv₁ c).isSerializableSubclass)
    (hallow : (cenv₂ c).isOpentimeValue = (cenv₁ c).isOpentimeValue)
    (hagree : ∀ x, x ≠ c → cenv₂ x = cenv₁ x) (m : ModuleInfo)
    (classes : List (Nat × ClsModel)) :
    candidateClasses cenv₂ m classes = candidateClasses cenv₁ m classes := by
  unfold candidateClasses
  apply List.filterMap_congr
  intro e _
  cases e with
  | cls c' =>
    dsimp only
    by_cases hc : c' = c
    · subst hc
      rw [hsub, hallow]
    · rw [hagree c' hc]
  | mod j => rfl
  | misc => rfl

theorem extractLocal_congr (cenv₁ cenv₂ : CEnv) (c : Nat)
    (hskip₁ : (cenv₁ c).isSkipClass = true) (hskip₂ : (cenv₂ c).isSkipClass = true)
    (hagree : ∀ x, x ≠ c → cenv₂ x = cenv₁ x) (cands : List Nat) :
    extractLocal cenv₂ cands = extractLocal cenv₁ cands := by
  unfold extractLocal
  apply foldl_congr_fun
  intro acc c'
  by_cases hc : c' = c
  · subst hc
    unfold extractLocalStep
    rw [hskip₁, hskip₂]
    rfl
  · unfold extractLocalStep
    rw [hagree c' hc]


theorem visitModule_congr (menv : MEnv) (cenv₁ cenv₂ : CEnv) (c : Nat)
    (hskip₁ : (cenv₁ c).isSkipClass = true) (hskip₂ : (cenv₂ c).isSkipClass = true)
    (hsub : (cenv₂ c).isSerializableSubclass = (cenv₁ c).isSerializableSubclass)
    (hallow : (cenv₂ c).isOpentimeValue = (cenv₁ c).isOpentimeValue)
    (hagree : ∀ x, x ≠ c → cenv₂ x = cenv₁ x) (mid : Nat) (st : St) :
    visitModule menv cenv₂ mid st = visitModule menv cenv₁ mid st := by
  simp only [visitModule]
  rw [candidateClasses_congr cenv₁ cenv₂ c hsub hallow hagree,
    extractLocal_congr cenv₁ cenv₂ c hskip₁ hskip₂ hagree]

theorem genList_congr (g₁ g₂ : Nat → St → Option St)
    (h : ∀ k s, g₁ k s = g₂ k s) :
    ∀ ks s, genList g₁ ks s = genList g₂ ks s := by
  intro ks
  induction ks with
  | nil => intro s; rfl
  | cons k t ih =>
    intro s
    simp only [genList, h k s]
    cases g₂ k s with
    | none => rfl
    | some s1 => exact ih s1

theorem gen_congr (menv : MEnv) (cenv₁ cenv₂ : CEnv) (c : Nat)
    (hskip₁ : (cenv₁ c).isSkipClass = true) (hskip₂ : (cenv₂ c).isSkipClass = true)
    (hsub : (cenv₂ c).isSerializableSubclass = (cenv₁ c).isSerializableSubclass)
    (hallow : (cenv₂ c).isOpentimeValue = (cenv₁ c).isOpentimeValue)
    (hagree : ∀ x, x ≠ c → cenv₂ x = cenv₁ x) :
    ∀ f mid st, generateModelForModule menv cenv₂ f mid st =
      generateModelForModule menv cenv₁ f mid st := by
  intro f
  induction f with
  | zero => intro mid st; rfl
  | succ f ih =>
    intro mid st
    rw [generateModelForModule_succ, generateModelForModule_succ,
      visitModule_congr menv cenv₁ cenv₂ c hskip₁ hskip₂ hsub hallow hagree]
    exact genList_congr _ _ (fun k s => ih k s) _ _

/-- C9: a type on the explicit denylist (`SKIP_CLASSES`) never appears as a
key of the resulting Model even when it is present among the members of a
traversed namespace and satisfies the candidate criteria; and it is never
instantiated or serialized during extraction — the run's outcome is
independent of the denylisted type's serialization data, attribute tables,
name, documentation and label. -/
theorem c9_skip_classes_never_in_model_nor_extracted (menv : MEnv)
    (cenv₁ cenv₂ : CEnv) (c root : Nat)
    (hskip₁ : (cenv₁ c).isSkipClass = true)
    (hskip₂ : (cenv₂ c).isSkipClass = true)
    (hsub : (cenv₂ c).isSerializableSubclass = (cenv₁ c).isSerializableSubclass)
    (hallow : (cenv₂ c).isOpentimeValue = (cenv₁ c).isOpentimeValue)
    (hagree : ∀ x, x ≠ c → cenv₂ x = cenv₁ x) :
    (∀ st', generateModel menv cenv₁ root = some st' →
      inKeys c st'.classes = false) ∧
    generateModel menv cenv₂ root = generateModel menv cenv₁ root := by
  constructor
  · intro st' h
    exact gen_inKeys_skip menv cenv₁ c hskip₁ _ root {} st' h rfl
  · unfold generateModel
    exact gen_congr menv cenv₁ cenv₂ c hskip₁ hskip₂ hsub hallow hagree _ root {}

/-- A denylisted class (standing for `otio._otio.TestObject`) present in the
single module of the witness graph; two environments give it different
serialization data and attribute tables. -/
def cenvC9a : CEnv := fun x =>
  if x = 7 then
    { name := "TestObject", module := "opentimelineio._otio",
      isSerializableSubclass := true, isSkipClass := true,
      serializedKeys := ["OTIO_SCHEMA", "a"], schemaLabel := "TestObject.1" }
  else {}

/-- The same denylisted class with different serialization data. -/
def cenvC9b : CEnv := fun x =>
  if x = 7 then
    { name := "TestObject", module := "opentimelineio._otio",
      isSerializableSubclass := true, isSkipClass := true,
      serializedKeys := ["OTIO_SCHEMA", "b", "c"], schemaLabel := "Zed.9" }
  else {}

/-- A namespace graph whose single module holds the denylisted class. -/
def menvC9 : MEnv :=
  { mods := [{ name := "opentimelineio", strName := "<module otio>",
               members := [Entry.cls 7] }] }

/-- Witness for C9 at a concrete graph containing a denylisted candidate. -/
theorem c9_skip_classes_never_in_model_nor_extracted_witness :
    ((cenvC9a 7).isSkipClass = true ∧ Entry.cls 7 ∈ (getModule menvC9 0).members) ∧
    ((generateModel menvC9 cenvC9a 0).elim True
        fun st' => inKeys 7 st'.classes = false) ∧
    generateModel menvC9 cenvC9b 0 = generateModel menvC9 cenvC9a 0 := by
  have main := c9_skip_classes_never_in_model_nor_extracted menvC9 cenvC9a cenvC9b 7 0
    (by decide) (by decide) (by decide) (by decide)
    (fun x hx => by simp [cenvC9a, cenvC9b, hx])
  refine ⟨⟨by decide, by decide⟩, ?_, main.2⟩
  cases h : generateModel menvC9 cenvC9a 0 with
  | none => trivial
  | some st' => exact main.1 st' h

/-! ### `_search_mod_recursively` and `_remap_to_python_modules`
(source lines 223-269) -/

/-- The generator `(m for m in mod_to_search.__dict__.values() if
inspect.ismodule(m))`. -/
def childModules (m : ModuleInfo) : List Nat :=
  m.members.filterMap fun e =>
    match e with
    | Entry.mod j => some j
    | _ => none

/-- The `for submod in child_modules` loop, threading the shared
`already_searched` set: skip searched children, add a child to the set before
descending, return the first found result. -/
def searchKids (g : Nat → Finset ℕ → Option String × Finset ℕ) :
    List Nat → Finset ℕ → Option String × Finset ℕ
  | [], S => (none, S)
  | j :: js, S =>
    if j ∈ S then searchKids g js S
    else
      match g j (insert j S) with
      | (some r, S') => (some r, S')
      | (none, S') => searchKids g js S'

/-- `_search_mod_recursively(cl, mod_to_search, already_searched)` with fuel
(exhaustion, which `searchFuel` precludes, reports not-found): report the
module's name when the class is among its dict values by identity, else search
its unsearched children. -/
def searchModRecursively (menv : MEnv) (cl : Nat) :
    Nat → Nat → Finset ℕ → Option String × Finset ℕ
  | 0, _, S => (none, S)
  | f + 1, mid, S =>
    let m := getModule menv mid
    if Entry.cls cl ∈ m.members then (some m.name, S)
    else searchKids (searchModRecursively menv cl f) (childModules m) S

/-- Fuel for the search: two more than the number of modules, enough because
the shared set grows at every descent. -/
def searchFuel (menv : MEnv) : Nat := menv.mods.length + 2

/-- The `for mod in SEARCH_MODULES` loop of `_remap_to_python_modules`,
threading the one shared mutable `IGNORE_MODS` set through the three
searches. -/
def remapSearch (menv : MEnv) (cl : Nat) : Option String :=
  let S0 : Finset ℕ := {menv.cppOtioId, menv.cppOpentimeId}
  match searchModRecursively menv cl (searchFuel menv) menv.schemaId S0 with
  | (some r, _) => some r
  | (none, S1) =>
    match searchModRecursively menv cl (searchFuel menv) menv.opentimeId S1 with
    | (some r, _) => some r
    | (none, S2) =>
      match searchModRecursively menv cl (searchFuel menv) menv.coreId S2 with
      | (some r, _) => some r
      | (none, _) => none

/-- `_remap_to_python_modules(cl)`: the first successful search wins, else
fall back to `inspect.getmodule(cl).__name__`. -/
def remapToPythonModules (menv : MEnv) (cenv : CEnv) (cl : Nat) : String :=
  match remapSearch menv cl with
  | some r => r
  | none => (cenv cl).module

/-- The `modobj` computation of `_write_documentation` (lines 281-284): remap
only the types declared in the two C++ backing modules. -/
def effectiveModule (menv : MEnv) (cenv : CEnv) (cl : Nat) : String :=
  if (cenv cl).module ∈ ["opentimelineio._opentime", "opentimelineio._otio"]
  then remapToPythonModules menv cenv cl
  else (cenv cl).module

/-- Reachability through member modules: `ModReach menv a b` when `b` is `a`
itself or a module reachable from `a` through module-valued dict entries. -/
inductive ModReach (menv : MEnv) : Nat → Nat → Prop
  | refl (a : Nat) : ModReach menv a a
  | head {a b c : Nat} : Entry.mod b ∈ (getModule menv a).members →
      ModReach menv b c → ModReach menv a c

theorem mem_of_mem_childModules (m : ModuleInfo) (j : Nat)
    (h : j ∈ childModules m) : Entry.mod j ∈ m.members := by
  unfold childModules at h
  rw [List.mem_filterMap] at h
  obtain ⟨e, he, hsome⟩ := h
  cases e with
  | cls c => simp at hsome
  | misc => simp at hsome
  | mod j' =>
    simp only [Option.some.injEq] at hsome
    subst hsome
    exact he

theorem searchKids_found (g : Nat → Finset ℕ → Option String × Finset ℕ) :
    ∀ js S r S', searchKids g js S = (some r, S') →
      ∃ j ∈ js, ∃ S₁ S₂, g j S₁ = (some r, S₂) := by
  intro js
  induction js with
  | nil =>
    intro S r S' h
    simp [searchKids] at h
  | cons j t ih =>
    intro S r S' h
    by_cases hjS : j ∈ S
    · rw [searchKids, if_pos hjS] at h
      obtain ⟨j', hj', hg⟩ := ih S r S' h
      exact ⟨j', List.mem_cons_of_mem _ hj', hg⟩
    · rw [searchKids, if_neg hjS] at h
      rcases hg : g j (insert j S) with ⟨o, S1⟩
      rw [hg] at h
      cases o with
      | some r0 =>
        simp only [Prod.mk.injEq, Option.some.injEq] at h
        exact ⟨j, List.mem_cons_self _ _, insert j S, S1, by rw [hg, h.1]⟩
      | none =>
        obtain ⟨j', hj', hgg⟩ := ih S1 r S' h
        exact ⟨j', List.mem_cons_of_mem _ hj', hgg⟩

/-- Soundness of the depth-first search: a found name is the name of a module
reachable from the searched root whose dict contains the class. -/
theorem searchModRecursively_sound (menv : MEnv) (cl : Nat) :
    ∀ f mid S r S', searchModRecursively menv cl f mid S = (some r, S') →
      ∃ t, ModReach menv mid t ∧ Entry.cls cl ∈ (getModule menv t).members ∧
        r = (getModule menv t).name := by
  intro f
  induction f with
  | zero =>
    intro mid S r S' h
    simp [searchModRecursively] at h
  | succ f ih =>
    intro mid S r S' h
    by_cases hmem : Entry.cls cl ∈ (getModule menv mid).members
    · rw [searchModRecursively] at h
      rw [if_pos hmem] at h
      simp only [Prod.mk.injEq, Option.some.injEq] at h
      exact ⟨mid, ModReach.refl mid, hmem, h.1.symm⟩
    · rw [searchModRecursively] at h
      rw [if_neg hmem] at h
      obtain ⟨j, hj, S₁, S₂, hg⟩ := searchKids_found _ _ _ _ _ h
      obtain ⟨t, hreach, hmem', hname⟩ := ih j S₁ r S₂ hg
      exact ⟨t, ModReach.head (mem_of_mem_childModules _ _ hj) hreach, hmem', hname⟩

/-- Soundness of the three-root loop. -/
theorem remapSearch_sound (menv : MEnv) (cl : Nat) (r : String)
    (h : remapSearch menv cl = some r) :
    ∃ root ∈ [menv.schemaId, menv.opentimeId, menv.coreId], ∃ t,
      ModReach menv root t ∧ Entry.cls cl ∈ (getModule menv t).members ∧
        r = (getModule menv t).name := by
  unfold remapSearch at h
  dsimp only at h
  rcases h1 : searchModRecursively menv cl (searchFuel menv) menv.schemaId
      {menv.cppOtioId, menv.cppOpentimeId} with ⟨o1, S1⟩
  rw [h1] at h
  cases o1 with
  | some r1 =>
    dsimp only at h
    simp only [Option.some.injEq] at h
    subst h
    exact ⟨menv.schemaId, by simp, searchModRecursively_sound menv cl _ _ _ _ _ h1⟩
  | none =>
    dsimp only at h
    rcases h2 : searchModRecursively menv cl (searchFuel menv) menv.opentimeId S1
      with ⟨o2, S2⟩
    rw [h2] at h
    cases o2 with
    | some r2 =>
      dsimp only at h
      simp only [Option.some.injEq] at h
      subst h
      exact ⟨menv.opentimeId, by simp, searchModRecursively_sound menv cl _ _ _ _ _ h2⟩
    | none =>
      dsimp only at h
      rcases h3 : searchModRecursively menv cl (searchFuel menv) menv.coreId S2
        with ⟨o3, S3⟩
      rw [h3] at h
      cases o3 with
      | some r3 =>
        dsimp only at h
        simp only [Option.some.injEq] at h
        subst h
        exact ⟨menv.coreId, by simp, searchModRecursively_sound menv cl _ _ _ _ _ h3⟩
      | none =>
        dsimp only at h
        exact Option.noConfusion h

/-- The namespace graph of the counterexample to C8: the canonical `schema`
root (module `0`) holds only the submodule `schema.box2d` (module `1`), which
holds the class `7` declared in the opaque `_otio` namespace. -/
def menvC8 : MEnv :=
  { mods :=
      [ { name := "opentimelineio.schema", strName := "<module schema>",
          members := [Entry.mod 1] },
        { name := "opentimelineio.schema.box2d", strName := "<module box2d>",
          members := [Entry.cls 7] },
        { name := "opentimelineio.opentime", strName := "<module opentime>",
          members := [] },
        { name := "opentimelineio.core", strName := "<module core>",
          members := [] },
        { name := "opentimelineio._otio", strName := "<module cpp>",
          members := [] },
        { name := "opentimelineio._opentime", strName := "<module cppot>",
          members := [] } ],
    schemaId := 0, opentimeId := 2, coreId := 3, cppOtioId := 4, cppOpentimeId := 5 }

/-- The class declared under the opaque namespace, reachable (only) from the
canonical `schema` root, through its submodule. -/
def cenvC8 : CEnv := fun x =>
  if x = 7 then { name := "Box2d", module := "opentimelineio._otio" } else {}

/-- C8 is false as stated: a type declared under an opaque namespace and
reachable from exactly one canonical namespace maps to the name of the module
of that namespace's subtree in whose dict it is found — here the submodule
`opentimelineio.schema.box2d` — and not to the canonical namespace's own path
`opentimelineio.schema`. -/
theorem c8_counterexample_submodule_name_reported :
    (cenvC8 7).module = "opentimelineio._otio" ∧
    (ModReach menvC8 menvC8.schemaId 1 ∧ Entry.cls 7 ∈ (getModule menvC8 1).members) ∧
    effectiveModule menvC8 cenvC8 7 = "opentimelineio.schema.box2d" ∧
    "opentimelineio.schema.box2d" ≠ "opentimelineio.schema" := by
  refine ⟨by decide, ⟨ModReach.head (by decide) (ModReach.refl 1), by decide⟩,
    by decide, by decide⟩

/-- C8 (amended): a type whose declaring namespace is not one of the two
opaque namespaces is never remapped and maps to itself; for a type that is
remapped, a successful search reports the name of a module reachable from one
of the three canonical roots (searched in fixed order with one shared visited
set) whose dict contains the type by identity — not necessarily the root
itself; and a type contained in no module reachable from any canonical root
falls back to its raw declaring namespace. -/
theorem c8_remap_properties (menv : MEnv) (cenv : CEnv) :
    (∀ cl, (cenv cl).module ∉ ["opentimelineio._opentime", "opentimelineio._otio"] →
      effectiveModule menv cenv cl = (cenv cl).module) ∧
    (∀ cl r, remapSearch menv cl = some r →
      ∃ root ∈ [menv.schemaId, menv.opentimeId, menv.coreId], ∃ t,
        ModReach menv root t ∧ Entry.cls cl ∈ (getModule menv t).members ∧
          r = (getModule menv t).name) ∧
    (∀ cl, (∀ root ∈ [menv.schemaId, menv.opentimeId, menv.coreId], ∀ t,
        ModReach menv root t → Entry.cls cl ∉ (getModule menv t).members) →
      remapToPythonModules menv cenv cl = (cenv cl).module) := by
  refine ⟨?_, ?_, ?_⟩
  · intro cl hmod
    unfold effectiveModule
    rw [if_neg hmod]
  · intro cl r h
    exact remapSearch_sound menv cl r h
  · intro cl hnone
    unfold remapToPythonModules
    cases hs : remapSearch menv cl with
    | some r =>
      obtain ⟨root, hroot, t, hreach, hmem, -⟩ := remapSearch_sound menv cl r hs
      exact absurd hmem (hnone root hroot t hreach)
    | none => rfl

/-- Witness for C8 (amended): a class declared in a canonical namespace is not
remapped. -/
theorem c8_remap_properties_witness :
    ((cenvC8 8).module ∉ ["opentimelineio._opentime", "opentimelineio._otio"]) ∧
    effectiveModule menvC8 cenvC8 8 = (cenvC8 8).module :=
  ⟨by decide, (c8_remap_properties menvC8 cenvC8).1 8 (by decide)⟩

/-! ### The renderer `_write_documentation` (source lines 272-324)

Python `.format` calls are inlined as string concatenation; `format` renders
the value `None` as the text `None` (`optStr`).  `model[cl]` and
`model[cl]["OTIO_SCHEMA"]` would raise `KeyError` on a malformed model; the
embedding defaults them (the pipeline always stores both), and no theorem
depends on the defaults. -/

/-- `DOCUMENT_HEADER` of the source. -/
def DOCUMENT_HEADER : String :=
  "# Serialized Data Documentation\n\nThis documents all the OpenTimelineIO classes that serialize to and from JSON,\nomitting SchemaDef plugins. This document is automatically generated by running:\n\n`src/py-opentimelineio/opentimelineio/console/autogen_serialized_datamodel.py`\n\nor by running:\n\n`make doc-model`\n\nIt is part of the unit tests suite and should be updated whenever the schema\nchanges.  If it needs to be updated and this file regenerated, run:\n\n`make doc-model-update`\n\n# Class Documentation\n\n"

/-- `FIELDS_ONLY_HEADER` of the source. -/
def FIELDS_ONLY_HEADER : String :=
  "# Serialized Data (Fields Only)\n\nThis document is a list of all the OpenTimelineIO classes that serialize to and\nfrom JSON, omitting plugins classes and docstrings.\n\nThis document is automatically generated by running:\n\n`src/py-opentimelineio/opentimelineio/console/autogen_serialized_datamodel.py`\n\nor by running:\n\n`make doc-model`\n\nIt is part of the unit tests suite and should be updated whenever the schema\nchanges.  If it needs to be updated and this file regenerated, run:\n\n`make doc-model-update`\n\n\n# Classes\n\n"

/-- Python `str(x)` for a stored `str`-or-`None` value inside `format`. -/
def optStr : Option String → String
  | some s => s
  | none => "None"

/-- `CLASS_HEADER_WITH_DOCS.format(classname=..., modpath=..., docstring=...)`. -/
def classHeaderWithDocs (classname modpath docstring : String) : String :=
  "\n### " ++ classname ++ "\n\n*full module path*: `" ++ modpath ++
    "`\n\n*documentation*:\n\n```\n" ++ docstring ++ "\n```\n\nparameters:\n"

/-- `CLASS_HEADER_ONLY_FIELDS.format(classname=...)`. -/
def classHeaderOnlyFields (classname : String) : String :=
  "\n### " ++ classname ++ "\n\nparameters:\n"

/-- `MODULE_HEADER.format(modname=...)`. -/
def moduleHeader (modname : String) : String :=
  "\n## Module: " ++ modname ++ "\n"

/-- `PROP_HEADER.format(propkey=..., prophelp=...)`. -/
def propHeader (propkey prophelp : String) : String :=
  "- *" ++ propkey ++ "*: " ++ prophelp ++ "\n"

/-- `PROP_HEADER_NO_HELP.format(propkey=...)`. -/
def propHeaderNoHelp (propkey : String) : String :=
  "- *" ++ propkey ++ "*\n"

/-- Python `str(cl)` for a class object. -/
def strOfClass (info : ClassInfo) : String :=
  "<class '" ++ info.module ++ "." ++ info.name ++ "'>"

/-- The model handed to the renderer: the `classes` dict. -/
abbrev Model := List (Nat × ClsModel)

/-- `modules.setdefault(modobj, []).append(cl)`. -/
def groupAdd (key : String) (c : Nat) :
    List (String × List Nat) → List (String × List Nat)
  | [] => [(key, [c])]
  | (k, l) :: t => if k = key then (k, l ++ [c]) :: t else (k, l) :: groupAdd key c t

/-- The grouping loop of lines 279-286, keyed by the effective module. -/
def groupClasses (menv : MEnv) (cenv : CEnv) (model : Model) :
    List (String × List Nat) :=
  model.foldl (fun acc kv => groupAdd (effectiveModule menv cenv kv.1) kv.1 acc) []

/-- `sorted(modules)`: the group keys in lexicographic order. -/
def sortedGroupKeys (groups : List (String × List Nat)) : List String :=
  List.insertionSort (fun a b => strLe a b = true) (groups.map Prod.fst)

/-- `sorted(modules[module_list], key=lambda cl: str(cl))`. -/
def sortedGroupClasses (cenv : CEnv) (cls : List Nat) : List Nat :=
  List.insertionSort
    (fun a b => strLe (strOfClass (cenv a)) (strOfClass (cenv b)) = true) cls

/-- The field loop of lines 314-322, writing one line per retained item into
each document. -/
def renderFieldLines (cm : ClsModel) : String × String :=
  (retainedItems cm).foldl
    (fun acc kv =>
      (acc.1 ++ propHeader kv.1 (optStr kv.2), acc.2 ++ propHeaderNoHelp kv.1))
    ("", "")

/-- The per-class writes of lines 298-322 into both documents. -/
def renderClass (cenv : CEnv) (model : Model) (thisMod : String) (c : Nat) :
    String × String :=
  let info := cenv c
  let cm := (alookup c model).getD []
  let label := optStr ((alookup "OTIO_SCHEMA" cm).getD none)
  let fl := renderFieldLines cm
  (classHeaderWithDocs label (thisMod ++ "." ++ info.name) (optStr info.doc) ++ fl.1,
    classHeaderOnlyFields label ++ fl.2)

/-- The loop over a group's sorted classes. -/
def renderClassList (cenv : CEnv) (model : Model) (thisMod : String) :
    List Nat → String × String
  | [] => ("", "")
  | c :: cs =>
    let r := renderClass cenv model thisMod c
    let rest := renderClassList cenv model thisMod cs
    (r.1 ++ rest.1, r.2 ++ rest.2)

/-- The `for module_list in sorted(modules)` loop threading `CURRENT_MODULE`
(when the heading is not emitted, `CURRENT_MODULE` already equals `this_mod`,
so unconditionally passing `some this_mod` onward is the same update). -/
def renderGroups (menv : MEnv) (cenv : CEnv) (model : Model)
    (groups : List (String × List Nat)) :
    Option String → List String → String × String
  | _, [] => ("", "")
  | cur, key :: rest =>
    let thisMod := firstTwoSegments key
    let heading := if some thisMod ≠ cur then moduleHeader thisMod else ""
    let body := renderClassList cenv model thisMod
      (sortedGroupClasses cenv ((alookup key groups).getD []))
    let r := renderGroups menv cenv model groups (some thisMod) rest
    (heading ++ body.1 ++ r.1, heading ++ body.2 ++ r.2)

/-- `_write_documentation(model)`: both documents. -/
def writeDocumentation (menv : MEnv) (cenv : CEnv) (model : Model) :
    String × String :=
  let groups := groupClasses menv cenv model
  let r := renderGroups menv cenv model groups none (sortedGroupKeys groups)
  (DOCUMENT_HEADER ++ r.1, FIELDS_ONLY_HEADER ++ r.2)

/-- Modelled from the spec (for the refinement claim C7): the group loop with
the heading decision expressed on adjacent groups — a heading is emitted
exactly when the first two path segments of the group differ from those of the
previous group (always for the first group). -/
def specRenderGroups (menv : MEnv) (cenv : CEnv) (model : Model)
    (groups : List (String × List Nat)) :
    Option String → List String → String × String
  | _, [] => ("", "")
  | prev, key :: rest =>
    let thisMod := firstTwoSegments key
    let heading :=
      if some thisMod ≠ Option.map firstTwoSegments prev then moduleHeader thisMod
      else ""
    let body := renderClassList cenv model thisMod
      (sortedGroupClasses cenv ((alookup key groups).getD []))
    let r := specRenderGroups menv cenv model groups (some key) rest
    (heading ++ body.1 ++ r.1, heading ++ body.2 ++ r.2)

/-- Modelled from the spec (for the refinement claim C7): the renderer with
the pairwise heading rule. -/
def specWriteDocumentation (menv : MEnv) (cenv : CEnv) (model : Model) :
    String × String :=
  let groups := groupClasses menv cenv model
  let r := specRenderGroups menv cenv model groups none (sortedGroupKeys groups)
  (DOCUMENT_HEADER ++ r.1, FIELDS_ONLY_HEADER ++ r.2)

/-! ### The lexicographic order used by Python `sorted` -/

theorem lexLe_total : ∀ a b : List Char, lexLe a b = true ∨ lexLe b a = true := by
  intro a
  induction a with
  | nil => intro b; exact Or.inl rfl
  | cons x xs ih =>
    intro b
    cases b with
    | nil => exact Or.inr rfl
    | cons y ys =>
      rcases lt_trichotomy x y with h | h | h
      · exact Or.inl (by simp [lexLe, h])
      · subst h
        rcases ih ys with h' | h'
        · exact Or.inl (by simp [lexLe, lt_irrefl, h'])
        · exact Or.inr (by simp [lexLe, lt_irrefl, h'])
      · exact Or.inr (by simp [lexLe, h])

theorem lexLe_trans : ∀ a b c : List Char,
    lexLe a b = true → lexLe b c = true → lexLe a c = true := by
  intro a
  induction a with
  | nil => intro b c _ _; rfl
  | cons x xs ih =>
    intro b c hab hbc
    cases b with
    | nil => simp [lexLe] at hab
    | cons y ys =>
      cases c with
      | nil => simp [lexLe] at hbc
      | cons z zs =>
        rcases lt_trichotomy x y with hxy | hxy | hxy
        · rcases lt_trichotomy y z with hyz | hyz | hyz
          · simp [lexLe, lt_trans hxy hyz]
          · subst hyz
            simp [lexLe, hxy]
          · simp [lexLe, lt_asymm hyz, hyz.ne'] at hbc
        · subst hxy
          rcases lt_trichotomy x z with hyz | hyz | hyz
          · simp [lexLe, hyz]
          · subst hyz
            simp only [lexLe, lt_irrefl, if_false, if_pos] at hab hbc ⊢
            exact ih ys zs hab hbc
          · simp [lexLe, lt_asymm hyz, hyz.ne'] at hbc
        · simp [lexLe, lt_asymm hxy, hxy.ne'] at hab

theorem strLe_total (a b : String) : strLe a b = true ∨ strLe b a = true :=
  lexLe_total a.data b.data

theorem strLe_trans {a b c : String}
    (hab : strLe a b = true) (hbc : strLe b c = true) : strLe a c = true :=
  lexLe_trans a.data b.data c.data hab hbc

/-! ### Claim C7: ordering of the rendered documents -/

/-- The implementation's threaded `CURRENT_MODULE` agrees with the pairwise
heading rule of the spec-side renderer. -/
theorem renderGroups_eq_spec (menv : MEnv) (cenv : CEnv) (model : Model)
    (groups : List (String × List Nat)) :
    ∀ keys prev,
      renderGroups menv cenv model groups (Option.map firstTwoSegments prev) keys =
        specRenderGroups menv cenv model groups prev keys := by
  intro keys
  induction keys with
  | nil => intro prev; rfl
  | cons key rest ih =>
    intro prev
    simp only [renderGroups, specRenderGroups]
    have h := ih (some key)
    simp only [Option.map_some'] at h
    rw [h]

theorem renderGroups_none_eq_spec (menv : MEnv) (cenv : CEnv) (model : Model)
    (groups : List (String × List Nat)) (keys : List String) :
    renderGroups menv cenv model groups none keys =
      specRenderGroups menv cenv model groups none keys :=
  renderGroups_eq_spec menv cenv model groups keys none

/-- C7: the renderer orders its output with namespace groups in lexicographic
order of the full effective namespace path, emits a new namespace heading
exactly when the first two path segments of a group differ from those of the
previous group (deeper differences produce none, the first group always gets
one), orders types within a group lexicographically by their display string,
and orders fields within a type lexicographically by field key — in both
documents (the implementation equals the spec-side renderer with the explicit
pairwise heading rule, and each sorting stage is sorted). -/
theorem c7_renderer_ordering (menv : MEnv) (cenv : CEnv) (model : Model) :
    writeDocumentation menv cenv model = specWriteDocumentation menv cenv model ∧
    List.Sorted (fun a b => strLe a b = true)
      (sortedGroupKeys (groupClasses menv cenv model)) ∧
    (∀ cls : List Nat,
      List.Sorted
        (fun a b => strLe (strOfClass (cenv a)) (strOfClass (cenv b)) = true)
        (sortedGroupClasses cenv cls)) ∧
    (∀ cm : ClsModel,
      List.Sorted (fun a b => strLe a.1 b.1 = true) (sortedItems cm)) := by
  refine ⟨?_, ?_, ?_, ?_⟩
  · simp only [writeDocumentation, specWriteDocumentation]
    rw [renderGroups_none_eq_spec]
  · haveI : IsTotal String (fun a b => strLe a b = true) := ⟨strLe_total⟩
    haveI : IsTrans String (fun a b => strLe a b = true) :=
      ⟨fun _ _ _ => strLe_trans⟩
    exact List.sorted_insertionSort _ _
  · intro cls
    haveI : IsTotal Nat
        (fun a b => strLe (strOfClass (cenv a)) (strOfClass (cenv b)) = true) :=
      ⟨fun a b => strLe_total _ _⟩
    haveI : IsTrans Nat
        (fun a b => strLe (strOfClass (cenv a)) (strOfClass (cenv b)) = true) :=
      ⟨fun _ _ _ => strLe_trans⟩
    exact List.sorted_insertionSort _ _
  · intro cm
    haveI : IsTotal (String × Option String)
        (fun a b => strLe a.1 b.1 = true) := ⟨fun a b => strLe_total _ _⟩
    haveI : IsTrans (String × Option String)
        (fun a b => strLe a.1 b.1 = true) := ⟨fun _ _ _ => strLe_trans⟩
    exact List.sorted_insertionSort _ _

/-! ### Claim C10: what determines the rendered bytes -/

theorem orderedInsert_rel_congr {α : Type} (r₁ r₂ : α → α → Prop)
    [DecidableRel r₁] [DecidableRel r₂] (h : ∀ a b, r₁ a b ↔ r₂ a b) (a : α) :
    ∀ l, List.orderedInsert r₁ a l = List.orderedInsert r₂ a l := by
  intro l
  induction l with
  | nil => rfl
  | cons b t ih =>
    simp only [List.orderedInsert]
    by_cases hr : r₁ a b
    · rw [if_pos hr, if_pos ((h a b).1 hr)]
    · rw [if_neg hr, if_neg (fun hc => hr ((h a b).2 hc)), ih]

theorem insertionSort_rel_congr {α : Type} (r₁ r₂ : α → α → Prop)
    [DecidableRel r₁] [DecidableRel r₂] (h : ∀ a b, r₁ a b ↔ r₂ a b) :
    ∀ l, List.insertionSort r₁ l = List.insertionSort r₂ l := by
  intro l
  induction l with
  | nil => rfl
  | cons a t ih =>
    simp only [List.insertionSort]
    rw [ih, orderedInsert_rel_congr r₁ r₂ h]

theorem effectiveModule_congr (menv : MEnv) (cenv₁ cenv₂ : CEnv) (c : Nat)
    (hmod : (cenv₂ c).module = (cenv₁ c).module) :
    effectiveModule menv cenv₂ c = effectiveModule menv cenv₁ c := by
  unfold effectiveModule remapToPythonModules
  rw [hmod]

theorem groupClasses_congr (menv : MEnv) (cenv₁ cenv₂ : CEnv) (model : Model)
    (hmod : ∀ c, (cenv₂ c).module = (cenv₁ c).module) :
    groupClasses menv cenv₂ model = groupClasses menv cenv₁ model := by
  unfold groupClasses
  apply foldl_congr_fun
  intro acc kv
  rw [effectiveModule_congr menv cenv₁ cenv₂ kv.1 (hmod kv.1)]

theorem strOfClass_congr (cenv₁ cenv₂ : CEnv) (c : Nat)
    (hmod : (cenv₂ c).module = (cenv₁ c).module)
    (hname : (cenv₂ c).name = (cenv₁ c).name) :
    strOfClass (cenv₂ c) = strOfClass (cenv₁ c) := by
  unfold strOfClass
  rw [hmod, hname]

theorem sortedGroupClasses_congr (cenv₁ cenv₂ : CEnv)
    (hmod : ∀ c, (cenv₂ c).module = (cenv₁ c).module)
    (hname : ∀ c, (cenv₂ c).name = (cenv₁ c).name) (cls : List Nat) :
    sortedGroupClasses cenv₂ cls = sortedGroupClasses cenv₁ cls := by
  unfold sortedGroupClasses
  exact insertionSort_rel_congr _ _
    (fun a b => by
      rw [strOfClass_congr cenv₁ cenv₂ a (hmod a) (hname a),
        strOfClass_congr cenv₁ cenv₂ b (hmod b) (hname b)]) cls

theorem renderClass_congr (cenv₁ cenv₂ : CEnv) (model : Model) (thisMod : String)
    (c : Nat) (hname : (cenv₂ c).name = (cenv₁ c).name)
    (hdoc : (cenv₂ c).doc = (cenv₁ c).doc) :
    renderClass cenv₂ model thisMod c = renderClass cenv₁ model thisMod c := by
  simp only [renderClass]
  rw [hname, hdoc]

theorem renderClassList_congr (cenv₁ cenv₂ : CEnv) (model : Model)
    (thisMod : String) (hname : ∀ c, (cenv₂ c).name = (cenv₁ c).name)
    (hdoc : ∀ c, (cenv₂ c).doc = (cenv₁ c).doc) :
    ∀ cls, renderClassList cenv₂ model thisMod cls =
      renderClassList cenv₁ model thisMod cls := by
  intro cls
  induction cls with
  | nil => rfl
  | cons c cs ih =>
    simp only [renderClassList]
    rw [ih, renderClass_congr cenv₁ cenv₂ model thisMod c (hname c) (hdoc c)]

theorem renderGroups_congr (menv : MEnv) (cenv₁ cenv₂ : CEnv) (model : Model)
    (groups : List (String × List Nat))
    (hmod : ∀ c, (cenv₂ c).module = (cenv₁ c).module)
    (hname : ∀ c, (cenv₂ c).name = (cenv₁ c).name)
    (hdoc : ∀ c, (cenv₂ c).doc = (cenv₁ c).doc) :
    ∀ keys cur, renderGroups menv cenv₂ model groups cur keys =
      renderGroups menv cenv₁ model groups cur keys := by
  intro keys
  induction keys with
  | nil => intro cur; rfl
  | cons key rest ih =>
    intro cur
    simp only [renderGroups]
    rw [ih, sortedGroupClasses_congr cenv₁ cenv₂ hmod hname,
      renderClassList_congr cenv₁ cenv₂ model _ hname hdoc]

/-- C10 (amended): rendering is a pure, deterministic function of the Model,
the per-type class data it displays (declaring namespace, name, documentation;
the label comes from the Model itself) and the namespace graph consulted for
remapping opaque declaring namespaces: with all of those fixed, re-rendering
yields byte-identical pairs of output strings. -/
theorem c10_render_determined_by_model_and_graph (menv : MEnv)
    (cenv₁ cenv₂ : CEnv) (model : Model)
    (hmod : ∀ c, (cenv₂ c).module = (cenv₁ c).module)
    (hname : ∀ c, (cenv₂ c).name = (cenv₁ c).name)
    (hdoc : ∀ c, (cenv₂ c).doc = (cenv₁ c).doc) :
    writeDocumentation menv cenv₂ model = writeDocumentation menv cenv₁ model := by
  simp only [writeDocumentation]
  rw [groupClasses_congr menv cenv₁ cenv₂ model hmod,
    renderGroups_congr menv cenv₁ cenv₂ model _ hmod hname hdoc]

/-- The model of the counterexample to C10: one type, declared in the opaque
`_otio` namespace, with its stored label. -/
def modelC10 : Model := [(7, [("OTIO_SCHEMA", some "Foo.1")])]

/-- The class data of the counterexample to C10. -/
def cenvC10 : CEnv := fun x =>
  if x = 7 then { name := "Foo", module := "opentimelineio._otio" } else {}

/-- A namespace graph in which the canonical `schema` root re-exports the
type. -/
def menvC10a : MEnv :=
  { mods :=
      [ { name := "opentimelineio.schema", strName := "<module schema>",
          members := [Entry.cls 7] },
        { name := "opentimelineio.opentime", strName := "<module opentime>",
          members := [] },
        { name := "opentimelineio.core", strName := "<module core>",
          members := [] },
        { name := "opentimelineio._otio", strName := "<module cpp>",
          members := [] },
        { name := "opentimelineio._opentime", strName := "<module cppot>",
          members := [] } ],
    schemaId := 0, opentimeId := 1, coreId := 2, cppOtioId := 3, cppOpentimeId := 4 }

/-- The same graph with the re-export removed; the type's declaring namespace,
name, label and documentation are untouched. -/
def menvC10b : MEnv :=
  { mods :=
      [ { name := "opentimelineio.schema", strName := "<module schema>",
          members := [] },
        { name := "opentimelineio.opentime", strName := "<module opentime>",
          members := [] },
        { name := "opentimelineio.core", strName := "<module core>",
          members := [] },
        { name := "opentimelineio._otio", strName := "<module cpp>",
          members := [] },
        { name := "opentimelineio._opentime", strName := "<module cppot>",
          members := [] } ],
    schemaId := 0, opentimeId := 1, coreId := 2, cppOtioId := 3, cppOpentimeId := 4 }

set_option maxRecDepth 40000 in
/-- C10 is false as stated: rendering reads state outside the Model — the
namespace graph searched by `_remap_to_python_modules` — so two renders of the
unchanged Model (same per-type declaring namespaces, names, labels and
documentation) produce different bytes when that graph differs. -/
theorem c10_counterexample_render_reads_module_graph :
    writeDocumentation menvC10a cenvC10 modelC10 ≠
      writeDocumentation menvC10b cenvC10 modelC10 := by
  decide

/-- Witness for C10 (amended): two class environments differing in everything
the renderer does not display (serialized keys, attribute tables, flags,
labels) render the same model identically. -/
def cenvC10w : CEnv := fun x =>
  if x = 7 then
    { name := "Foo", module := "opentimelineio._otio",
      isSerializableSubclass := true,
      serializedKeys := ["OTIO_SCHEMA", "x", "y"], schemaLabel := "Other.3",
      attr := fun _ => AttrRes.prop (some "ignored") }
  else {}

/-- Witness for C10 (amended) at the concrete graph and model. -/
theorem c10_render_determined_by_model_and_graph_witness :
    (∀ c, (cenvC10w c).module = (cenvC10 c).module) ∧
    writeDocumentation menvC10a cenvC10w modelC10 =
      writeDocumentation menvC10a cenvC10 modelC10 :=
  ⟨fun c => by by_cases hc : c = 7 <;> simp [cenvC10w, cenvC10, hc],
    c10_render_determined_by_model_and_graph menvC10a cenvC10 cenvC10w modelC10
      (fun c => by by_cases hc : c = 7 <;> simp [cenvC10w, cenvC10, hc])
      (fun c => by by_cases hc : c = 7 <;> simp [cenvC10w, cenvC10, hc])
      (fun c => by by_cases hc : c = 7 <;> simp [cenvC10w, cenvC10, hc])⟩

end Otio
